import Mathlib

/-
  Verification development for the ROI-heads module of the DoNet repository
  (detectron2/modeling/roi_heads/roi_heads.py).

  The Python source is shallowly embedded below: tensors of class labels are
  lists of integers, box tensors are lists of rational 4-vectors, mask logits
  are lists of reals, and the external collaborators (conv layers, mask heads,
  pooler, matcher) are explicit function parameters.  Line numbers in the
  comments refer to roi_heads.py.  Definitions come first, then the theorems.
-/

namespace DoNet

/-! ### Proposal labeling: ROIHeads._sample_proposals (lines 206-224) -/

/-- Lines 209-213 of `_sample_proposals`, the `has_gt` branch: gather the
ground-truth class of the matched target for every proposal, overwrite
matcher label 0 with the background sentinel `numClasses`, and overwrite
matcher label -1 with the ignore sentinel -1. -/
def resolveGtClasses (numClasses : ℤ) (matchedIdxs : List ℕ) (matchedLabels : List ℤ)
    (gtClasses : List ℤ) : List ℤ :=
  (List.zip matchedIdxs matchedLabels).map (fun p =>
    let c := gtClasses.getD p.1 0
    let c := if p.2 = 0 then numClasses else c
    if p.2 = -1 then -1 else c)

/-- Lines 214-215: if the filter class is enabled (different from -1), remap
every resolved class equal to `filterOut` to the literal class id 2. -/
def applyFilterClass (filterOut : ℤ) (classes : List ℤ) : List ℤ :=
  if filterOut ≠ -1 then classes.map (fun c => if c = filterOut then 2 else c)
  else classes

/-- Lines 206-217: the per-proposal class vector computed by
`_sample_proposals` before subsampling.  When the image has no ground truth
(`gt_classes.numel() == 0`) every proposal is labeled background and the
filter step is not reached. -/
def sampleClassVector (numClasses : ℤ) (filterOut : ℤ) (matchedIdxs : List ℕ)
    (matchedLabels : List ℤ) (gtClasses : List ℤ) : List ℤ :=
  if gtClasses.length > 0 then
    applyFilterClass filterOut (resolveGtClasses numClasses matchedIdxs matchedLabels gtClasses)
  else
    matchedIdxs.map (fun _ => numClasses)

/-- Modelled from the spec: `subsample_labels` (detectron2 sampling module,
imported at line 19 but not part of this repository).  Positives are the
indices whose label lies in `[0, bgValue)`, negatives the indices whose label
equals `bgValue`; the desired positive count is
`min |positives| round(batchSize * posFrac)` and negatives fill the remaining
budget, capped at the pool size.  The random draw is injected as `perm`, the
order in which indices are taken from each pool. -/
def subsampleLabels (perm : List ℕ) (labels : List ℤ) (batchSize : ℕ) (posFrac : ℚ)
    (bgValue : ℤ) : List ℕ × List ℕ :=
  let pos := (List.range labels.length).filter
    (fun i => 0 ≤ labels.getD i (-1) ∧ labels.getD i (-1) < bgValue)
  let neg := (List.range labels.length).filter (fun i => labels.getD i (-1) = bgValue)
  let posOrd := perm.filter (fun i => i ∈ pos) ++ pos.filter (fun i => i ∉ perm)
  let negOrd := perm.filter (fun i => i ∈ neg) ++ neg.filter (fun i => i ∉ perm)
  let numPos := min pos.length (round ((batchSize : ℚ) * posFrac)).toNat
  let numNeg := min neg.length (batchSize - numPos)
  (posOrd.take numPos, negOrd.take numNeg)

/-- Lines 206-224: `_sample_proposals`.  Returns the sampled indices
(foreground first, then background, line 223) and the class label of each
sampled proposal (line 224). -/
def sampleProposals (perm : List ℕ) (batchSize : ℕ) (posFrac : ℚ) (numClasses : ℤ)
    (filterOut : ℤ) (matchedIdxs : List ℕ) (matchedLabels : List ℤ)
    (gtClasses : List ℤ) : List ℕ × List ℤ :=
  let classes := sampleClassVector numClasses filterOut matchedIdxs matchedLabels gtClasses
  let fgbg := subsampleLabels perm classes batchSize posFrac numClasses
  let sampled := fgbg.1 ++ fgbg.2
  (sampled, sampled.map (fun i => classes.getD i 0))

/-- A per-image target set: ground-truth classes and boxes (4-vectors). -/
structure TargetSet where
  gtClasses : List ℤ
  gtBoxes : List (List ℚ)

/-- The labeled proposal set produced for one image. -/
structure LabeledProposals where
  sampledIdxs : List ℕ
  gtClasses : List ℤ
  gtBoxes : List (List ℚ)

/-- The all-zero ground-truth box synthesized for empty-target images. -/
def zeroBox : List ℚ := List.replicate 4 0

/-- Lines 273-310: the per-image body of `label_and_sample_proposals`.  The
matcher output (`matchedIdxs`, `matchedLabels`) is taken as input (the
Matcher is an external collaborator).  For images with ground truth the
`gt_boxes` field is copied from the matched target (lines 290-299); for
images with zero targets a zero-filled box of shape (#sampled, 4) is
synthesized (lines 300-305). -/
def labelAndSampleImage (perm : List ℕ) (batchSize : ℕ) (posFrac : ℚ) (numClasses : ℤ)
    (filterOut : ℤ) (matchedIdxs : List ℕ) (matchedLabels : List ℤ)
    (tgt : TargetSet) : LabeledProposals :=
  let s := sampleProposals perm batchSize posFrac numClasses filterOut
    matchedIdxs matchedLabels tgt.gtClasses
  let hasGt := tgt.gtClasses.length > 0
  { sampledIdxs := s.1
    gtClasses := s.2
    gtBoxes :=
      if hasGt then
        s.1.map (fun i => tgt.gtBoxes.getD (matchedIdxs.getD i 0) zeroBox)
      else
        List.replicate s.1.length zeroBox }

/-! ### Construction-time configuration of TripleBranchROIHeads (lines 1393-1457) -/

/-- The configuration attributes read by `TripleBranchROIHeads.__init__`.
Optional attributes model `hasattr`: `none` means the attribute is absent
from the configuration object, `some b` that it is present with value `b`. -/
structure ModelCfg where
  forNucleiAttr : Option Bool
  semiAttr : Option Bool
  pureBranchAttr : Option Bool
  rpnAttentionAttr : Option Bool
  branchGuidanceAttr : Option Bool
  headsAttentionAttr : Option Bool
  refinementAttr : Option Bool
  consisLoss : Bool
  consisLossMode : String
  inChannels : List ℕ

/-- The immutable branch-configuration flags held by a constructed
`TripleBranchROIHeads`. -/
structure TBFlags where
  forNuclei : Bool
  semiSupervised : Bool
  pureBranch : Bool
  rpnAttentionTb : Bool
  branchGuidance : Bool
  headsAttention : Bool
  refinement : Bool
  consisLoss : Bool
  consisLossMode : String

/-- Lines 1393-1457: flag resolution in `TripleBranchROIHeads.__init__`.
`_init_box_head` (called at line 1399, before the flag block) asserts that
all in-feature channel counts are equal (line 1472).  `for_nuclei` is set to
true whenever the `FOR_NUCLEI` attribute merely exists (lines 1404-1406); the
other optional flags take the attribute value with default false, except
`refinement` which defaults to true and, when present and false, asserts
`branch_guidance` (lines 1425-1429). -/
def initTripleBranchFlags (cfg : ModelCfg) : Except String TBFlags :=
  if cfg.inChannels.dedup.length ≠ 1 then
    .error "AssertionError: channel counts differ across feature levels"
  else
    let flags : TBFlags :=
      { forNuclei := cfg.forNucleiAttr.isSome
        semiSupervised := cfg.semiAttr.getD false
        pureBranch := cfg.pureBranchAttr.getD false
        rpnAttentionTb := cfg.rpnAttentionAttr.getD false
        branchGuidance := cfg.branchGuidanceAttr.getD false
        headsAttention := cfg.headsAttentionAttr.getD false
        refinement := cfg.refinementAttr.getD true
        consisLoss := cfg.consisLoss
        consisLossMode := cfg.consisLossMode }
    match cfg.refinementAttr with
    | some false =>
        if flags.branchGuidance then .ok flags
        else .error "AssertionError: refinement cannot be off without branch_guidance"
    | _ => .ok flags

/-- Whether a construction attempt completed successfully. -/
def constructionOk (e : Except String TBFlags) : Bool :=
  match e with
  | .ok _ => true
  | .error _ => false

/-- Lines 1759-1767: the `filter_out_class` argument that
`TripleBranchROIHeads.forward` passes to `label_and_sample_proposals` in a
labeled training invocation. -/
def tripleFilterClass (fl : TBFlags) : ℤ :=
  if fl.forNuclei then 0
  else if fl.rpnAttentionTb then 1
  else -1

/-- Lines 524-526: `StandardROIHeads.__init__` sets `for_nuclei` to true
whenever the `FOR_NUCLEI` attribute exists. -/
def standardForNuclei (cfg : ModelCfg) : Bool :=
  cfg.forNucleiAttr.isSome

/-- Lines 622-627: the `filter_out_class` argument that
`StandardROIHeads.forward` passes to `label_and_sample_proposals` during
training (-1 is the default of `label_and_sample_proposals`). -/
def standardFilterClass (forNuclei : Bool) : ℤ :=
  if forNuclei then 0 else -1

/-! ### The triple-branch forward pass (training), lines 1746-1894 -/

/-- Flattened mask logits. -/
abbrev Tensor : Type := List ℝ

/-- A loss dictionary: named scalar losses.  `dictUpdate` below realizes the
Python `dict.update` (later entries win on lookup). -/
abbrev LossMap : Type := List (String × ℝ)

/-- `losses.update(new)`: entries of `new` shadow entries of `m`. -/
def dictUpdate (m new : LossMap) : LossMap := new ++ m

/-- Line 1802: scale every value of a loss dictionary by a constant. -/
def scaleLM (a : ℝ) (m : LossMap) : LossMap := m.map (fun kv => (kv.1, kv.2 * a))

/-- A labeled instance: its box and its resolved ground-truth class. -/
structure Inst (B : Type) where
  box : B
  cls : ℤ

/-- Lines 90-95: `select_foreground_proposals` keeps the instances whose
`gt_classes` is neither -1 nor the background label. -/
def selectFgImage {B : Type} (bgLabel : ℤ) (ps : List (Inst B)) : List (Inst B) :=
  ps.filter (fun p => p.cls ≠ -1 ∧ p.cls ≠ bgLabel)

/-- `select_foreground_proposals` over the image batch. -/
def selectFg {B : Type} (bgLabel : ℤ) (proposals : List (List (Inst B))) :
    List (List (Inst B)) :=
  proposals.map (selectFgImage bgLabel)

/-- The external collaborators of `TripleBranchROIHeads.forward`:
the labeling step, the box branch, the mask pooler, the three mask-head
modules (each returning a loss dictionary, the predicted mask logits and an
intermediate feature), channel concatenation, elementwise product, and the
two guidance convolution stacks built at lines 1431-1457. -/
structure TripleHeads (B F : Type) where
  labelSample : List (List (Inst B)) → ℤ → List (List (Inst B))
  boxLoss : List (List (Inst B)) → LossMap
  pool : List (List B) → F
  whole : F → List (List (Inst B)) → Bool → LossMap × Tensor × F
  overlapHead : F → List (List (Inst B)) → LossMap × Tensor × F
  nonoverlapHead : F → List (List (Inst B)) → LossMap × Tensor × F
  catF : List F → F
  mulF : F → F → F
  guidOverlap : List (F → F)
  guidNonoverlap : List (F → F)

/-- Lines 1807-1808 (and 1809-1810): the guidance convolution loop as
written in the source.  Each iteration applies the current layer to the
*concatenated* input and overwrites the running variable, so for a nonempty
stack only the last layer's output survives; for an empty stack the variable
is never assigned (a NameError in Python, modeled as `none`). -/
def guidanceLoop {F : Type} (layers : List (F → F)) (x : F) : Option F :=
  layers.foldl (fun _ layer => some (layer x)) none

/-- The reading of the spec (section 4.4): a convolution stack applied
sequentially, each layer consuming the previous layer's output. -/
def stackSequential {F : Type} (layers : List (F → F)) (x : F) : F :=
  layers.foldl (fun acc layer => layer acc) x

/-- The logistic sigmoid. -/
noncomputable def sigmoid (x : ℝ) : ℝ := 1 / (1 + Real.exp (-x))

/-- Elementwise sigmoid of a logits tensor. -/
noncomputable def sigmoidT (t : Tensor) : Tensor := t.map sigmoid

/-- One term of binary cross-entropy with input probability `p` and target
`t`. -/
noncomputable def bceTerm (p t : ℝ) : ℝ := -(t * Real.log p + (1 - t) * Real.log (1 - p))

/-- `F.binary_cross_entropy(input, target, reduction="mean")`. -/
noncomputable def bceMean (input target : Tensor) : ℝ :=
  ((input.zip target).map (fun pt => bceTerm pt.1 pt.2)).sum / input.length

/-- Line 1882: `(logits.sigmoid() > 0.5).float()`. -/
noncomputable def binarize (t : Tensor) : Tensor :=
  t.map (fun x => if (1 : ℝ) / 2 < sigmoid x then (1 : ℝ) else 0)

/-- Lines 1883-1885: `(n.sigmoid() > 0.5).logical_xor(o.sigmoid() > 0.5).float()`. -/
noncomputable def binarizeXor (n o : Tensor) : Tensor :=
  (n.zip o).map (fun p =>
    if ((1 : ℝ) / 2 < sigmoid p.1 ↔ (1 : ℝ) / 2 < sigmoid p.2) then (0 : ℝ) else 1)

/-- Lines 1725-1741, without the visualization hook:
`cal_triple_branch_consistency_loss(main, addition)` is the mean binary
cross-entropy with input `addition` and target `main`. -/
noncomputable def calTripleBranchConsistencyLoss (mainIn addIn : Tensor) : ℝ :=
  bceMean addIn mainIn

/-- The result of the pre-branch stage (lines 1798-1822): the accumulated
losses, the features handed to the overlap and non-overlap branches, and,
when the guidance branch ran, its logits and its raw (unweighted) loss
dictionary. -/
structure PreOut (F : Type) where
  losses : LossMap
  overF : F
  nonoverF : F
  gLogits : Option Tensor
  gLossRaw : Option LossMap

/-- Lines 1798-1822: the guidance / attention / plain pre-branch stage of
the training forward pass.  With `branch_guidance` the whole-mask branch
runs without guiding layers, its loss is merged scaled by 0.75 unless the
invocation is unlabeled, the concatenation `[F0, G]` is pushed through the
two convolution loops (see `guidanceLoop`); with `heads_attention` the
whole-mask branch provides an attention tensor multiplied into the pooled
features and its loss is merged unscaled unless unlabeled; otherwise both
branches receive the pooled features unchanged. -/
def preBranchStage {B F : Type} (H : TripleHeads B F) (fl : TBFlags) (unlabeled : Bool)
    (losses0 : LossMap) (maskF : F) (selected : List (List (Inst B))) :
    Except String (PreOut F) :=
  if fl.branchGuidance then
    let g := H.whole maskF selected false
    let losses1 := if ¬unlabeled then dictUpdate losses0 (scaleLM 0.75 g.1) else losses0
    let xcat := H.catF [maskF, g.2.2]
    match guidanceLoop H.guidOverlap xcat, guidanceLoop H.guidNonoverlap xcat with
    | some overF, some nonoverF =>
        .ok ⟨losses1, overF, nonoverF, some g.2.1, some g.1⟩
    | _, _ => .error "NameError: guidance conv stack is empty"
  else if fl.headsAttention then
    let g := H.whole maskF selected false
    let losses1 := if unlabeled then losses0 else dictUpdate losses0 g.1
    let att := H.mulF maskF g.2.2
    .ok ⟨losses1, att, att, none, some g.1⟩
  else
    .ok ⟨losses0, maskF, maskF, none, none⟩

/-- Lines 1857-1873: the refinement stage.  In `pure_branch` mode the
whole-mask branch reruns on the pooled features without guiding layers and
its loss is merged *unconditionally* (line 1861) before the common
unlabeled-discard step (lines 1870-1873); otherwise it runs on the
concatenation of the pooled features with both branch intermediates and its
loss is merged only when labeled.  Returns the loss dictionary and the
whole-mask logits (which remain unbound when `refinement` is off). -/
def refinementStage {B F : Type} (H : TripleHeads B F) (fl : TBFlags) (unlabeled : Bool)
    (losses3 : LossMap) (maskF : F) (oInner nInner : F)
    (selected : List (List (Inst B))) : LossMap × Option Tensor :=
  if fl.refinement then
    if fl.pureBranch then
      let w := H.whole maskF selected false
      let losses4 := dictUpdate losses3 w.1
      let losses5 := if unlabeled then losses4 else dictUpdate losses4 w.1
      (losses5, some w.2.1)
    else
      let w := H.whole (H.catF [maskF, oInner, nInner]) selected true
      let losses5 := if unlabeled then losses3 else dictUpdate losses3 w.1
      (losses5, some w.2.1)
  else (losses3, none)

/-- Lines 1875-1878: in an unlabeled invocation with `branch_guidance`, a
consistency loss between sigmoid-of-sigmoid of the guidance logits (input)
and sigmoid-of-sigmoid of the refinement whole-mask logits (target),
weighted 0.1, is merged.  The refinement logits are unbound when
`refinement` is off (a NameError in Python). -/
noncomputable def guidanceConsisStep (fl : TBFlags) (unlabeled : Bool) (losses : LossMap)
    (gLogits wLogits : Option Tensor) : Except String LossMap :=
  if fl.branchGuidance ∧ unlabeled = true then
    match gLogits, wLogits with
    | some gl, some wl =>
        .ok (dictUpdate losses [("branch_guidance_consistency_loss",
          0.1 * bceMean (sigmoidT (sigmoidT gl)) (sigmoidT (sigmoidT wl)))])
    | _, _ => .error "NameError: triple_branch_whole_mask_logits"
  else .ok losses

/-- Lines 1880-1891: the branch-consistency loss.  In mode "MX" the
binarized refinement whole-mask logits are the target and the XOR of the
binarized non-overlap and overlap logits the input of a mean binary
cross-entropy, weighted 0.00125, merged under the key
`loss_triple_branch_consistency`.  With any other mode the update variable
is unbound (a NameError at line 1891); the whole-mask logits are unbound
when `refinement` is off. -/
noncomputable def consisStep (fl : TBFlags) (losses : LossMap) (wLogits : Option Tensor)
    (oLogits nLogits : Tensor) : Except String LossMap :=
  if fl.consisLoss then
    match wLogits with
    | none => .error "NameError: triple_branch_whole_mask_logits"
    | some wl =>
        if fl.consisLossMode = "MX" then
          .ok (dictUpdate losses [("loss_triple_branch_consistency",
            calTripleBranchConsistencyLoss (binarize wl) (binarizeXor nLogits oLogits)
              * 0.00125)])
        else .error "NameError: triple_branch_consistency_loss"
  else .ok losses

/-- Lines 1757-1768: the proposals used downstream.  In an unlabeled
invocation the input proposals pass through untouched; otherwise
`label_and_sample_proposals` is applied with the filter class selected at
lines 1761-1767. -/
def twProps {B : Type} (labelSample : List (List (Inst B)) → ℤ → List (List (Inst B)))
    (fl : TBFlags) (proposals : List (List (Inst B))) (unlabeled : Bool) :
    List (List (Inst B)) :=
  if unlabeled then proposals else labelSample proposals (tripleFilterClass fl)

/-- Lines 1777-1781: the box-branch losses, skipped when unlabeled. -/
def twLosses0 {B F : Type} (H : TripleHeads B F) (fl : TBFlags)
    (proposals : List (List (Inst B))) (unlabeled : Bool) : LossMap :=
  if unlabeled then [] else H.boxLoss (twProps H.labelSample fl proposals unlabeled)

/-- Lines 1787-1791: the proposals that feed the mask branches: all
proposals when unlabeled, the foreground subset otherwise. -/
def twSelected {B F : Type} (H : TripleHeads B F) (fl : TBFlags) (nc : ℤ)
    (proposals : List (List (Inst B))) (unlabeled : Bool) : List (List (Inst B)) :=
  if unlabeled then twProps H.labelSample fl proposals unlabeled
  else selectFg nc (twProps H.labelSample fl proposals unlabeled)

/-- Line 1792: the boxes pooled for the mask branches. -/
def twBoxes {B F : Type} (H : TripleHeads B F) (fl : TBFlags) (nc : ℤ)
    (proposals : List (List (Inst B))) (unlabeled : Bool) : List (List B) :=
  (twSelected H fl nc proposals unlabeled).map (fun im => im.map Inst.box)

/-- Line 1793: the pooled mask features `F0`. -/
def twMaskF {B F : Type} (H : TripleHeads B F) (fl : TBFlags) (nc : ℤ)
    (proposals : List (List (Inst B))) (unlabeled : Bool) : F :=
  H.pool (twBoxes H fl nc proposals unlabeled)

/-- Lines 1824-1855: run the overlap and non-overlap branches on the
features prepared by the pre-branch stage and merge their losses unless the
invocation is unlabeled. -/
def twLosses3 {B F : Type} (H : TripleHeads B F) (fl : TBFlags) (nc : ℤ)
    (proposals : List (List (Inst B))) (unlabeled : Bool) (pre : PreOut F) : LossMap :=
  let selected := twSelected H fl nc proposals unlabeled
  let o := H.overlapHead pre.overF selected
  let losses2 := if unlabeled then pre.losses else dictUpdate pre.losses o.1
  let n := H.nonoverlapHead pre.nonoverF selected
  if unlabeled then losses2 else dictUpdate losses2 n.1

/-- The refinement stage applied to the state after the overlap and
non-overlap branches. -/
def twRef {B F : Type} (H : TripleHeads B F) (fl : TBFlags) (nc : ℤ)
    (proposals : List (List (Inst B))) (unlabeled : Bool) (pre : PreOut F) :
    LossMap × Option Tensor :=
  let selected := twSelected H fl nc proposals unlabeled
  refinementStage H fl unlabeled (twLosses3 H fl nc proposals unlabeled pre)
    (twMaskF H fl nc proposals unlabeled)
    (H.overlapHead pre.overF selected).2.2
    (H.nonoverlapHead pre.nonoverF selected).2.2 selected

/-- The observable outcome of a training forward pass: the returned
proposals and loss dictionary (line 1894), together with the intermediate
values of the run (the selected proposals, the pooled boxes, the raw
pre-branch loss and logits, the branch input features and the branch
logits). -/
structure TrainResult (B F : Type) where
  instances : List (List (Inst B))
  losses : LossMap
  selected : List (List (Inst B))
  pooledBoxes : List (List B)
  guidanceLossRaw : Option LossMap
  guidanceLogits : Option Tensor
  overlapIn : F
  nonoverlapIn : F
  overlapLogits : Tensor
  nonoverlapLogits : Tensor
  wholeLogits : Option Tensor

/-- Assemble the final result of a successful training forward pass. -/
def twAssemble {B F : Type} (H : TripleHeads B F) (fl : TBFlags) (nc : ℤ)
    (proposals : List (List (Inst B))) (unlabeled : Bool) (pre : PreOut F)
    (losses7 : LossMap) : TrainResult B F :=
  let selected := twSelected H fl nc proposals unlabeled
  let o := H.overlapHead pre.overF selected
  let n := H.nonoverlapHead pre.nonoverF selected
  { instances := twProps H.labelSample fl proposals unlabeled
    losses := losses7
    selected := selected
    pooledBoxes := twBoxes H fl nc proposals unlabeled
    guidanceLossRaw := pre.gLossRaw
    guidanceLogits := pre.gLogits
    overlapIn := pre.overF
    nonoverlapIn := pre.nonoverF
    overlapLogits := o.2.1
    nonoverlapLogits := n.2.1
    wholeLogits := (twRef H fl nc proposals unlabeled pre).2 }

/-- Lines 1746-1894: `TripleBranchROIHeads.forward` in training mode.  The
invocation is unlabeled when the first image has no targets (line 1758,
an IndexError when the target list is empty). -/
noncomputable def trainForward {B F : Type} (H : TripleHeads B F) (fl : TBFlags) (nc : ℤ)
    (proposals : List (List (Inst B))) (targets : List (List (Inst B))) :
    Except String (TrainResult B F) :=
  match targets with
  | [] => .error "IndexError: targets is empty"
  | t0 :: _ =>
    match preBranchStage H fl t0.isEmpty (twLosses0 H fl proposals t0.isEmpty)
        (twMaskF H fl nc proposals t0.isEmpty) (twSelected H fl nc proposals t0.isEmpty) with
    | .error e => .error e
    | .ok pre =>
      match guidanceConsisStep fl t0.isEmpty
          (twRef H fl nc proposals t0.isEmpty pre).1 pre.gLogits
          (twRef H fl nc proposals t0.isEmpty pre).2 with
      | .error e => .error e
      | .ok l6 =>
        match consisStep fl l6 (twRef H fl nc proposals t0.isEmpty pre).2
            (H.overlapHead pre.overF (twSelected H fl nc proposals t0.isEmpty)).2.1
            (H.nonoverlapHead pre.nonoverF (twSelected H fl nc proposals t0.isEmpty)).2.1 with
        | .error e => .error e
        | .ok l7 => .ok (twAssemble H fl nc proposals t0.isEmpty pre l7)

/-! ### Concrete instantiations used to evaluate the embedding -/

/-- A concrete instantiation of the external collaborators, used to evaluate
the embedded forward pass on small inputs: features are integers, boxes are
naturals, the pooled feature is 5, the whole-mask head returns inner feature
3 with distinct loss keys for the guided and unguided calls, the overlap and
non-overlap heads echo their input feature, concatenation is summation, and
both guidance stacks are the three layers add-one, add-one, double. -/
noncomputable def Hfix : TripleHeads ℕ ℤ where
  labelSample := fun p _ => p
  boxLoss := fun _ => []
  pool := fun _ => 5
  whole := fun _ _ g =>
    if g then ([("loss_refine", 2)], [2, -2], 3)
    else ([("loss_whole_pre", 1)], [1, -1], 3)
  overlapHead := fun f _ => ([], [1, 1], f)
  nonoverlapHead := fun f _ => ([], [-1, 1], f)
  catF := fun l => l.sum
  mulF := fun a b => a * b
  guidOverlap := [fun n => n + 1, fun n => n + 1, fun n => 2 * n]
  guidNonoverlap := [fun n => n + 1, fun n => n + 1, fun n => 2 * n]

/-- One image with one foreground proposal of class 0. -/
def pOne : List (List (Inst ℕ)) := [[⟨0, 0⟩]]

/-- One image with an empty target set (the unlabeled situation). -/
def tEmpty : List (List (Inst ℕ)) := [[]]

/-- Flags: branch guidance on, refinement on, everything else off. -/
def flBG : TBFlags := ⟨false, false, false, false, true, false, true, false, ""⟩

/-- Flags: refinement in pure-branch mode, everything else off. -/
def flPure : TBFlags := ⟨false, false, true, false, false, false, true, false, ""⟩

/-- Flags: heads attention on, refinement on, everything else off. -/
def flHA : TBFlags := ⟨false, false, false, false, false, true, true, false, ""⟩

/-- Flags: consistency loss in mode MX, refinement on, everything else off. -/
def flMX : TBFlags := ⟨false, false, false, false, false, false, true, true, "MX"⟩

/-- Flags: refinement on, everything else off. -/
def flPlain : TBFlags := ⟨false, false, false, false, false, false, true, false, ""⟩

/-- A configuration whose `FOR_NUCLEI` attribute is present with value
false. -/
def cfgNuclei : ModelCfg := ModelCfg.mk (some false) none none none none none none false "MX" [256]

/-- The flags resolved from `cfgNuclei`: `for_nuclei` is true although the
attribute value is false. -/
def flNuclei : TBFlags := ⟨true, false, false, false, false, false, true, false, "MX"⟩

/-- The result of a labeled run with the MX consistency loss enabled. -/
noncomputable def rMX : TrainResult ℕ ℤ :=
  ((trainForward Hfix flMX 3 pOne pOne).toOption).get (by rfl)

/-- The result of an unlabeled run with all optional branches off. -/
noncomputable def rPlain : TrainResult ℕ ℤ :=
  ((trainForward Hfix flPlain 3 pOne tEmpty).toOption).get (by rfl)

/-- The result of a labeled run with branch guidance. -/
noncomputable def rBG : TrainResult ℕ ℤ :=
  ((trainForward Hfix flBG 3 pOne pOne).toOption).get (by rfl)

/-- Flags: branch guidance on together with refinement in pure-branch mode,
everything else off. -/
def flBGpure : TBFlags := ⟨false, false, true, false, true, false, true, false, ""⟩

/-- The result of a labeled run with branch guidance and the pure-branch
refinement rerun. -/
noncomputable def rBGpure : TrainResult ℕ ℤ :=
  ((trainForward Hfix flBGpure 3 pOne pOne).toOption).get (by rfl)

/-- The result of a labeled run with heads attention. -/
noncomputable def rHA : TrainResult ℕ ℤ :=
  ((trainForward Hfix flHA 3 pOne pOne).toOption).get (by rfl)

/-! ### Lemmas about the sampler pools -/

/-- Every index in the positive pool of `subsampleLabels` is in range and has
a label in `[0, bgValue)`. -/
theorem mem_fg_subsampleLabels {perm labels batchSize posFrac bgValue} {i : ℕ}
    (h : i ∈ (subsampleLabels perm labels batchSize posFrac bgValue).1) :
    i < labels.length ∧ 0 ≤ labels.getD i (-1) ∧ labels.getD i (-1) < bgValue := by
  unfold subsampleLabels at h
  simp only at h
  have hpos : i ∈ (List.range labels.length).filter
      (fun i => 0 ≤ labels.getD i (-1) ∧ labels.getD i (-1) < bgValue) := by
    have h2 := List.mem_of_mem_take h
    rcases List.mem_append.mp h2 with h3 | h3
    · have hp := (List.mem_filter.mp h3).2
      simpa using hp
    · exact (List.mem_filter.mp h3).1
  rcases List.mem_filter.mp hpos with ⟨hr, hp⟩
  simp only [List.mem_range] at hr
  simp only [decide_eq_true_eq] at hp
  exact ⟨hr, hp⟩

/-- Every index in the negative pool of `subsampleLabels` is in range and has
label equal to `bgValue`. -/
theorem mem_bg_subsampleLabels {perm labels batchSize posFrac bgValue} {i : ℕ}
    (h : i ∈ (subsampleLabels perm labels batchSize posFrac bgValue).2) :
    i < labels.length ∧ labels.getD i (-1) = bgValue := by
  unfold subsampleLabels at h
  simp only at h
  have hneg : i ∈ (List.range labels.length).filter
      (fun i => labels.getD i (-1) = bgValue) := by
    have h2 := List.mem_of_mem_take h
    rcases List.mem_append.mp h2 with h3 | h3
    · have hp := (List.mem_filter.mp h3).2
      simpa using hp
    · exact (List.mem_filter.mp h3).1
  rcases List.mem_filter.mp hneg with ⟨hr, hp⟩
  simp only [List.mem_range] at hr
  simp only [decide_eq_true_eq] at hp
  exact ⟨hr, hp⟩

/-- The two `getD` defaults used in the development agree on in-range
indices. -/
theorem getD_eq_of_lt {l : List ℤ} {i : ℕ} (h : i < l.length) (d d' : ℤ) :
    l.getD i d = l.getD i d' := by
  simp [List.getD_eq_getElem?_getD, List.getElem?_eq_getElem h]

/-- Every index sampled by `subsampleLabels` (foreground or background) is a
valid index into the label vector. -/
theorem mem_sampled_lt {perm : List ℕ} {labels : List ℤ} {batchSize : ℕ} {posFrac : ℚ}
    {bgValue : ℤ} {i : ℕ}
    (h : i ∈ (subsampleLabels perm labels batchSize posFrac bgValue).1 ++
      (subsampleLabels perm labels batchSize posFrac bgValue).2) :
    i < labels.length := by
  rcases List.mem_append.mp h with h1 | h1
  · exact (mem_fg_subsampleLabels h1).1
  · exact (mem_bg_subsampleLabels h1).1

/-! ### Claims about proposal labeling -/

/-- C8 (confirmed): every label returned by `_sample_proposals` is either a
foreground category in `[0, numClasses)` or exactly the background sentinel
`numClasses`; in particular the ignore sentinel -1 never appears among the
sampled labels (the sampler draws only from the pools described by its
contract: positives with label in `[0, numClasses)`, negatives with label
equal to `numClasses`). -/
theorem c8_label_exhaustiveness (perm : List ℕ) (batchSize : ℕ) (posFrac : ℚ)
    (numClasses filterOut : ℤ) (matchedIdxs : List ℕ) (matchedLabels : List ℤ)
    (gtClasses : List ℤ) (x : ℤ)
    (hx : x ∈ (sampleProposals perm batchSize posFrac numClasses filterOut
      matchedIdxs matchedLabels gtClasses).2) :
    ((0 ≤ x ∧ x < numClasses) ∨ x = numClasses) ∧ (numClasses ≠ -1 → x ≠ -1) := by
  unfold sampleProposals at hx
  simp only [List.mem_map] at hx
  obtain ⟨i, hi, hxval⟩ := hx
  have hmain : (0 ≤ x ∧ x < numClasses) ∨ x = numClasses := by
    rcases List.mem_append.mp hi with h1 | h1
    · obtain ⟨hlt, hge, hltc⟩ := mem_fg_subsampleLabels h1
      left
      rw [← hxval, getD_eq_of_lt hlt 0 (-1)]
      exact ⟨hge, hltc⟩
    · obtain ⟨hlt, heq⟩ := mem_bg_subsampleLabels h1
      right
      rw [← hxval, getD_eq_of_lt hlt 0 (-1)]
      exact heq
  refine ⟨hmain, fun hnc => ?_⟩
  rcases hmain with ⟨hge, _⟩ | heq
  · intro hx1; rw [hx1] at hge; omega
  · intro hx1; rw [hx1] at heq; exact hnc heq.symm

/-- Witness for C8 on a concrete input. -/
theorem c8_label_exhaustiveness_witness :
    ((0 ≤ (0 : ℤ) ∧ (0 : ℤ) < 3) ∨ (0 : ℤ) = 3) ∧ ((3 : ℤ) ≠ -1 → (0 : ℤ) ≠ -1) :=
  c8_label_exhaustiveness [0, 1] 4 (1 / 2) 3 (-1) [0, 0] [1, 0] [0] 0 (by
    norm_num [sampleProposals, sampleClassVector, applyFilterClass, resolveGtClasses,
      subsampleLabels, List.range_succ, List.filter])

/-- C5 (confirmed): for an image with zero targets, the per-image body of
`label_and_sample_proposals` returns proposals whose resolved classes all
equal the background sentinel `numClasses`, and whose `gt_boxes` field is the
all-zero tensor with exactly one 4-vector per sampled proposal. -/
theorem c5_empty_targets (perm : List ℕ) (batchSize : ℕ) (posFrac : ℚ)
    (numClasses filterOut : ℤ) (matchedIdxs : List ℕ) (matchedLabels : List ℤ)
    (tgt : TargetSet) (hempty : tgt.gtClasses = []) :
    (∀ c ∈ (labelAndSampleImage perm batchSize posFrac numClasses filterOut
      matchedIdxs matchedLabels tgt).gtClasses, c = numClasses) ∧
    (labelAndSampleImage perm batchSize posFrac numClasses filterOut
      matchedIdxs matchedLabels tgt).gtBoxes =
      List.replicate (labelAndSampleImage perm batchSize posFrac numClasses filterOut
        matchedIdxs matchedLabels tgt).sampledIdxs.length zeroBox := by
  have hlen : tgt.gtClasses.length = 0 := by rw [hempty]; rfl
  have hvec : sampleClassVector numClasses filterOut matchedIdxs matchedLabels tgt.gtClasses =
      matchedIdxs.map (fun _ => numClasses) := by
    unfold sampleClassVector
    rw [hlen]
    simp
  constructor
  · intro c hc
    unfold labelAndSampleImage sampleProposals at hc
    simp only [List.mem_map] at hc
    obtain ⟨i, hi, hcval⟩ := hc
    rw [hvec] at hi
    have hlt : i < (matchedIdxs.map (fun _ => numClasses)).length := mem_sampled_lt hi
    rw [← hcval, hvec]
    rw [List.getD_eq_getElem?_getD, List.getElem?_eq_getElem hlt]
    simp
  · unfold labelAndSampleImage
    simp [hlen]

/-- Witness for C5 on a concrete input. -/
theorem c5_empty_targets_witness :
    (∀ c ∈ (labelAndSampleImage [0] 2 (1 / 2) 1 (-1) [0] [0]
      (TargetSet.mk [] [])).gtClasses, c = 1) ∧
    (labelAndSampleImage [0] 2 (1 / 2) 1 (-1) [0] [0]
      (TargetSet.mk [] [])).gtBoxes =
      List.replicate (labelAndSampleImage [0] 2 (1 / 2) 1 (-1) [0] [0]
        (TargetSet.mk [] [])).sampledIdxs.length zeroBox :=
  c5_empty_targets [0] 2 (1 / 2) 1 (-1) [0] [0] (TargetSet.mk [] []) rfl

/-- C3 counterexample: with `filter_out_class = 2` the remap
`gt_classes[gt_classes == 2] = 2` is the identity, so a proposal resolved to
class 2 keeps class 2 in the returned labeled set: the claimed property "no
output proposal has resolved class c" fails at c = 2.  Here one target of
class 2 is matched by the single proposal as foreground, and the sampled
output carries class 2. -/
theorem c3_filter_class_two_counterexample :
    2 ∈ (labelAndSampleImage [0] 8 (1 / 4) 3 2 [0] [1]
      (TargetSet.mk [2] [[1, 1, 2, 2]])).gtClasses := by
  norm_num [labelAndSampleImage, sampleProposals, sampleClassVector, applyFilterClass,
    resolveGtClasses, subsampleLabels, List.range_succ, List.filter]

/-- C3 (amended): for `filter_out_class = c` with c different from both -1
and 2, on an image with at least one target, no sampled proposal carries
resolved class c, and every in-range proposal whose matcher-resolved class
equals c carries class 2 in the sampled class vector instead. -/
theorem c3_filter_remap_amended (perm : List ℕ) (batchSize : ℕ) (posFrac : ℚ)
    (numClasses c : ℤ) (matchedIdxs : List ℕ) (matchedLabels : List ℤ)
    (gtClasses : List ℤ) (hc1 : c ≠ -1) (hc2 : c ≠ 2)
    (hgt : gtClasses.length > 0) :
    (∀ x ∈ (sampleProposals perm batchSize posFrac numClasses c
      matchedIdxs matchedLabels gtClasses).2, x ≠ c) ∧
    (∀ i, i < (resolveGtClasses numClasses matchedIdxs matchedLabels gtClasses).length →
      (resolveGtClasses numClasses matchedIdxs matchedLabels gtClasses).getD i 0 = c →
      (sampleClassVector numClasses c matchedIdxs matchedLabels gtClasses).getD i 0 = 2) := by
  have hvec : sampleClassVector numClasses c matchedIdxs matchedLabels gtClasses =
      (resolveGtClasses numClasses matchedIdxs matchedLabels gtClasses).map
        (fun v => if v = c then 2 else v) := by
    unfold sampleClassVector applyFilterClass
    rw [if_pos hgt, if_pos hc1]
  constructor
  · intro x hx
    unfold sampleProposals at hx
    simp only [List.mem_map] at hx
    obtain ⟨i, hi, hxval⟩ := hx
    have hlt : i < (sampleClassVector numClasses c matchedIdxs matchedLabels gtClasses).length :=
      mem_sampled_lt hi
    rw [hvec] at hlt
    rw [← hxval, hvec, List.getD_eq_getElem?_getD, List.getElem?_eq_getElem hlt]
    simp only [Option.getD_some, List.getElem_map]
    split
    · exact fun h => hc2 h.symm
    · assumption
  · intro i hlt hres
    rw [hvec, List.getD_eq_getElem?_getD,
      List.getElem?_eq_getElem (by simpa using hlt)]
    rw [List.getD_eq_getElem?_getD, List.getElem?_eq_getElem hlt] at hres
    simp only [Option.getD_some] at hres ⊢
    simp [hres]

/-- Witness for the amended C3 on a concrete input. -/
theorem c3_filter_remap_amended_witness :
    ((0 : ℤ) ≠ -1 ∧ (0 : ℤ) ≠ 2 ∧ ([0] : List ℤ).length > 0) ∧
    ((∀ x ∈ (sampleProposals [0] 8 (1 / 4) 3 0 [0] [1] [0]).2, x ≠ 0) ∧
     (∀ i, i < (resolveGtClasses 3 [0] [1] [0]).length →
       (resolveGtClasses 3 [0] [1] [0]).getD i 0 = 0 →
       (sampleClassVector 3 0 [0] [1] [0]).getD i 0 = 2)) :=
  ⟨by decide,
    c3_filter_remap_amended [0] 8 (1 / 4) 3 0 [0] [1] [0]
      (by decide) (by decide) (by decide)⟩

/-! ### Claims about construction -/

/-- C7 (confirmed): a configuration that sets the refinement flag to false
while branch guidance resolves to false never constructs successfully; the
construction-time assertion at line 1429 fires. -/
theorem c7_construction_invariant (cfg : ModelCfg)
    (href : cfg.refinementAttr = some false)
    (hbg : cfg.branchGuidanceAttr.getD false = false) :
    constructionOk (initTripleBranchFlags cfg) = false := by
  unfold initTripleBranchFlags
  split
  · rfl
  · simp only [href, hbg]
    rfl

/-- Witness for C7 on a concrete configuration. -/
theorem c7_construction_invariant_witness :
    constructionOk (initTripleBranchFlags
      (ModelCfg.mk none none none none none none (some false) false "MX" [256])) = false :=
  c7_construction_invariant
    (ModelCfg.mk none none none none none none (some false) false "MX" [256]) rfl rfl

/-! ### Lemmas about loss dictionaries -/

/-- Lookup in an appended loss dictionary: the left part wins. -/
theorem lookup_append (l₁ l₂ : LossMap) (k : String) :
    (l₁ ++ l₂).lookup k = ((l₁.lookup k).or (l₂.lookup k)) := by
  induction l₁ with
  | nil => simp
  | cons hd tl ih =>
    obtain ⟨a, b⟩ := hd
    simp only [List.cons_append, List.lookup]
    cases h : k == a
    · simpa [h] using ih
    · simp [h]

/-- Lookup after a `dict.update`: the new entries win. -/
theorem lookup_dictUpdate (m n : LossMap) (k : String) :
    (dictUpdate m n).lookup k = ((n.lookup k).or (m.lookup k)) :=
  lookup_append n m k

/-- Lookup in a scaled loss dictionary. -/
theorem lookup_scaleLM (a : ℝ) (m : LossMap) (k : String) :
    (scaleLM a m).lookup k = (m.lookup k).map (fun v => v * a) := by
  induction m with
  | nil => simp [scaleLM]
  | cons hd tl ih =>
    obtain ⟨s, v⟩ := hd
    simp only [scaleLM, List.map_cons, List.lookup]
    cases h : k == s
    · simpa [scaleLM, h] using ih
    · simp [h]

/-! ### Inversion lemmas for the training forward pass -/

/-- A successful training forward run decomposes into its stages: the
pre-branch stage succeeded, then the guidance-consistency and consistency
steps succeeded, and the result is assembled from the stage outputs. -/
theorem trainForward_ok_inv {B F : Type} (H : TripleHeads B F) (fl : TBFlags) (nc : ℤ)
    (proposals : List (List (Inst B))) (t0 : List (Inst B)) (rest : List (List (Inst B)))
    (r : TrainResult B F)
    (hok : trainForward H fl nc proposals (t0 :: rest) = .ok r) :
    ∃ pre l6,
      preBranchStage H fl t0.isEmpty (twLosses0 H fl proposals t0.isEmpty)
        (twMaskF H fl nc proposals t0.isEmpty) (twSelected H fl nc proposals t0.isEmpty)
        = .ok pre ∧
      guidanceConsisStep fl t0.isEmpty (twRef H fl nc proposals t0.isEmpty pre).1
        pre.gLogits (twRef H fl nc proposals t0.isEmpty pre).2 = .ok l6 ∧
      consisStep fl l6 (twRef H fl nc proposals t0.isEmpty pre).2
        (H.overlapHead pre.overF (twSelected H fl nc proposals t0.isEmpty)).2.1
        (H.nonoverlapHead pre.nonoverF (twSelected H fl nc proposals t0.isEmpty)).2.1
        = .ok r.losses ∧
      r = twAssemble H fl nc proposals t0.isEmpty pre r.losses := by
  unfold trainForward at hok
  dsimp only at hok
  cases hpre : preBranchStage H fl t0.isEmpty (twLosses0 H fl proposals t0.isEmpty)
      (twMaskF H fl nc proposals t0.isEmpty) (twSelected H fl nc proposals t0.isEmpty) with
  | error e => rw [hpre] at hok; simp at hok
  | ok pre =>
    rw [hpre] at hok
    dsimp only at hok
    cases hg : guidanceConsisStep fl t0.isEmpty (twRef H fl nc proposals t0.isEmpty pre).1
        pre.gLogits (twRef H fl nc proposals t0.isEmpty pre).2 with
    | error e => rw [hg] at hok; simp at hok
    | ok l6 =>
      rw [hg] at hok
      dsimp only at hok
      cases hc : consisStep fl l6 (twRef H fl nc proposals t0.isEmpty pre).2
          (H.overlapHead pre.overF (twSelected H fl nc proposals t0.isEmpty)).2.1
          (H.nonoverlapHead pre.nonoverF (twSelected H fl nc proposals t0.isEmpty)).2.1 with
      | error e => rw [hc] at hok; simp at hok
      | ok l7 =>
        rw [hc] at hok
        dsimp only at hok
        injection hok with h7
        subst h7
        exact ⟨pre, l6, rfl, hg, hc, rfl⟩

/-- Inversion of `consisStep` when the consistency loss is enabled in mode
"MX": the whole-mask logits were bound, and the resulting dictionary holds
the weighted mask-xor consistency term under its key. -/
theorem consisStep_mx_lookup (fl : TBFlags) (l6 : LossMap) (w : Option Tensor)
    (o n : Tensor) (L : LossMap)
    (hc : fl.consisLoss = true) (hm : fl.consisLossMode = "MX")
    (h : consisStep fl l6 w o n = .ok L) :
    ∃ wl, w = some wl ∧
      L.lookup "loss_triple_branch_consistency" =
        some (calTripleBranchConsistencyLoss (binarize wl) (binarizeXor n o) * 0.00125) := by
  unfold consisStep at h
  rw [hc, if_pos rfl] at h
  cases w with
  | none => simp at h
  | some wl =>
    dsimp only at h
    rw [hm, if_pos rfl] at h
    injection h with h
    refine ⟨wl, rfl, ?_⟩
    rw [← h]
    simp [dictUpdate, List.lookup]

/-- Inversion of the pre-branch stage under `branch_guidance`: the raw loss
and the logits of the guidance call are recorded, and the loss dictionary is
the 0.75-scaled merge unless the invocation is unlabeled. -/
theorem preBranchStage_bg {B F : Type} (H : TripleHeads B F) (fl : TBFlags)
    (unlabeled : Bool) (losses0 : LossMap) (maskF : F)
    (selected : List (List (Inst B))) (pre : PreOut F)
    (hbg : fl.branchGuidance = true)
    (h : preBranchStage H fl unlabeled losses0 maskF selected = .ok pre) :
    pre.gLossRaw = some (H.whole maskF selected false).1 ∧
    pre.losses = (if ¬unlabeled then
      dictUpdate losses0 (scaleLM 0.75 (H.whole maskF selected false).1)
      else losses0) := by
  unfold preBranchStage at h
  rw [hbg, if_pos rfl] at h
  dsimp only at h
  cases hov : guidanceLoop H.guidOverlap (H.catF [maskF, (H.whole maskF selected false).2.2]) with
  | none =>
    rw [hov] at h
    cases hnov : guidanceLoop H.guidNonoverlap
        (H.catF [maskF, (H.whole maskF selected false).2.2]) with
    | none => rw [hnov] at h; simp at h
    | some nov => rw [hnov] at h; simp at h
  | some ov =>
    rw [hov] at h
    cases hnov : guidanceLoop H.guidNonoverlap
        (H.catF [maskF, (H.whole maskF selected false).2.2]) with
    | none => rw [hnov] at h; simp at h
    | some nov =>
      rw [hnov] at h
      dsimp only at h
      injection h with h
      rw [← h]
      exact ⟨rfl, rfl⟩

/-- Inversion of the pre-branch stage under `heads_attention` (without
branch guidance): the raw loss of the attention call is recorded and merged
unscaled unless the invocation is unlabeled. -/
theorem preBranchStage_ha {B F : Type} (H : TripleHeads B F) (fl : TBFlags)
    (unlabeled : Bool) (losses0 : LossMap) (maskF : F)
    (selected : List (List (Inst B))) (pre : PreOut F)
    (hbg : fl.branchGuidance = false) (hha : fl.headsAttention = true)
    (h : preBranchStage H fl unlabeled losses0 maskF selected = .ok pre) :
    pre.gLossRaw = some (H.whole maskF selected false).1 ∧
    pre.losses = (if unlabeled then losses0
      else dictUpdate losses0 (H.whole maskF selected false).1) := by
  unfold preBranchStage at h
  rw [hbg, if_neg Bool.false_ne_true] at h
  rw [hha, if_pos rfl] at h
  dsimp only at h
  injection h with h
  rw [← h]
  exact ⟨rfl, rfl⟩

/-- Helper: lookup through the refinement stage and the overlap and
non-overlap merges of a labeled run, for a key that none of those branches
produce, reaches the pre-branch loss dictionary — provided the pure-branch
rerun does not happen (pure_branch off, or refinement off). -/
theorem lookup_twRef_labeled {B F : Type} (H : TripleHeads B F) (fl : TBFlags) (nc : ℤ)
    (proposals : List (List (Inst B))) (pre : PreOut F) (k : String)
    (hside : fl.pureBranch = false ∨ fl.refinement = false)
    (hO : ∀ f i, ((H.overlapHead f i).1).lookup k = none)
    (hN : ∀ f i, ((H.nonoverlapHead f i).1).lookup k = none)
    (hW : ∀ f i, ((H.whole f i true).1).lookup k = none) :
    ((twRef H fl nc proposals false pre).1).lookup k = pre.losses.lookup k := by
  unfold twRef refinementStage twLosses3
  cases hrf : fl.refinement with
  | false => simp [hrf, lookup_dictUpdate, hO, hN]
  | true =>
    have hpure : fl.pureBranch = false := by
      rcases hside with h | h
      · exact h
      · rw [h] at hrf
        exact absurd hrf Bool.false_ne_true
    simp [hrf, hpure, lookup_dictUpdate, hO, hN, hW]

/-- Helper: in a labeled run with refinement in pure-branch mode, the
refinement rerun of the whole-mask head (same pooled features, same
selection, no guiding layers, lines 1859-1861 and 1873) is merged last, so
its entries shadow the pre-branch dictionary on lookup. -/
theorem lookup_twRef_labeled_pure {B F : Type} (H : TripleHeads B F) (fl : TBFlags)
    (nc : ℤ) (proposals : List (List (Inst B))) (pre : PreOut F) (k : String)
    (hrf : fl.refinement = true) (hpure : fl.pureBranch = true)
    (hO : ∀ f i, ((H.overlapHead f i).1).lookup k = none)
    (hN : ∀ f i, ((H.nonoverlapHead f i).1).lookup k = none) :
    ((twRef H fl nc proposals false pre).1).lookup k =
      (((H.whole (twMaskF H fl nc proposals false)
          (twSelected H fl nc proposals false) false).1).lookup k).or
        (pre.losses.lookup k) := by
  cases hw : ((H.whole (twMaskF H fl nc proposals false)
      (twSelected H fl nc proposals false) false).1).lookup k with
  | none => simp [twRef, refinementStage, twLosses3, hrf, hpure,
      lookup_dictUpdate, hO, hN, hw]
  | some w => simp [twRef, refinementStage, twLosses3, hrf, hpure,
      lookup_dictUpdate, hO, hN, hw]

/-- Helper: a successful consistency step leaves every key other than
`loss_triple_branch_consistency` unchanged, whatever the flags. -/
theorem consisStep_lookup_ne (fl : TBFlags) (l6 : LossMap) (w : Option Tensor)
    (o n : Tensor) (L : LossMap) (k : String)
    (hk : k ≠ "loss_triple_branch_consistency")
    (h : consisStep fl l6 w o n = .ok L) :
    L.lookup k = l6.lookup k := by
  unfold consisStep at h
  cases hcl : fl.consisLoss with
  | false =>
    rw [hcl, if_neg Bool.false_ne_true] at h
    rw [← Except.ok.inj h]
  | true =>
    rw [hcl, if_pos rfl] at h
    cases w with
    | none => simp at h
    | some wl =>
      dsimp only at h
      by_cases hm : fl.consisLossMode = "MX"
      · rw [hm, if_pos rfl] at h
        rw [← Except.ok.inj h, lookup_dictUpdate]
        have hbeq : (k == "loss_triple_branch_consistency") = false := by
          simp [hk]
        simp [List.lookup, hbeq]
      · rw [if_neg hm] at h
        simp at h

/-! ### Claims about the triple-branch forward pass -/

/-- C1 evaluation (code bug): in the embedded forward pass with branch
guidance, the feature handed to the overlap and non-overlap branches is the
*last* guidance convolution layer applied to the concatenation (the loop at
lines 1807-1810 overwrites its result with `layer(concatenation)` on every
iteration), not the sequential composition of the three layers that the
claim describes.  With layers add-one, add-one, double on concatenated
input 8, the code produces 16 while the sequential stack produces 20. -/
theorem c1_guidance_stack_code_eval :
    (trainForward Hfix flBG 3 pOne pOne).map (fun r => (r.overlapIn, r.nonoverlapIn)) =
      .ok (16, 16) ∧
    stackSequential Hfix.guidOverlap (Hfix.catF [5, 3]) = 20 ∧
    (16 : ℤ) ≠ 20 :=
  ⟨rfl, rfl, by decide⟩

/-- C2 evaluation (code bug): in an unlabeled training invocation with
`refinement` and `pure_branch` on, the whole-mask branch loss is merged into
the returned loss dictionary by the unconditional update at line 1861, so
the returned mapping does contain a per-branch mask-loss entry, contrary to
the claim that all branch losses are discarded on the unlabeled path. -/
theorem c2_unlabeled_pure_branch_code_eval :
    (trainForward Hfix flPure 3 pOne tEmpty).map
      (fun r => r.losses.lookup "loss_whole_pre") = .ok (some 1) :=
  rfl

/-- C4 counterexample: in a labeled run with `heads_attention` (and no
branch guidance), the attention pre-branch whole-mask loss is merged
unscaled (line 1818) — its entry is 1, not 1 * 0.75 — so the claimed 0.75
weighting fails for the attention pre-branch. -/
theorem c4_heads_attention_weight_counterexample :
    (trainForward Hfix flHA 3 pOne pOne).map
      (fun r => r.losses.lookup "loss_whole_pre") = .ok (some 1) ∧
    (1 : ℝ) ≠ 1 * 0.75 :=
  ⟨rfl, by norm_num⟩

/-- C4 (amended): in every labeled training run, for a pre-branch loss key
that the box, overlap, non-overlap, guided whole-mask and consistency
updates do not produce: with branch guidance and no pure-branch rerun
(pure_branch off, or refinement off) the pre-branch whole-mask loss enters
the returned mapping multiplied by exactly 0.75; with branch guidance and
refinement in pure-branch mode the refinement stage reruns the whole-mask
head on the same inputs and its unweighted loss shadows the entry
(effective weight 1.0); with heads attention (without branch guidance,
pure_branch arbitrary) the pre-branch loss enters unweighted (weight
1.0). -/
theorem c4_pre_branch_weights_amended :
    (∀ (B F : Type) (H : TripleHeads B F) (fl : TBFlags) (nc : ℤ)
      (proposals : List (List (Inst B))) (t0 : List (Inst B))
      (rest : List (List (Inst B))) (r : TrainResult B F) (gl : LossMap)
      (k : String) (v : ℝ),
      fl.branchGuidance = true →
      (fl.pureBranch = false ∨ fl.refinement = false) →
      t0 ≠ [] →
      trainForward H fl nc proposals (t0 :: rest) = .ok r →
      r.guidanceLossRaw = some gl → gl.lookup k = some v →
      (∀ f i, ((H.overlapHead f i).1).lookup k = none) →
      (∀ f i, ((H.nonoverlapHead f i).1).lookup k = none) →
      (∀ f i, ((H.whole f i true).1).lookup k = none) →
      k ≠ "loss_triple_branch_consistency" →
      r.losses.lookup k = some (v * 0.75)) ∧
    (∀ (B F : Type) (H : TripleHeads B F) (fl : TBFlags) (nc : ℤ)
      (proposals : List (List (Inst B))) (t0 : List (Inst B))
      (rest : List (List (Inst B))) (r : TrainResult B F) (gl : LossMap)
      (k : String) (v : ℝ),
      fl.branchGuidance = true → fl.refinement = true → fl.pureBranch = true →
      t0 ≠ [] →
      trainForward H fl nc proposals (t0 :: rest) = .ok r →
      r.guidanceLossRaw = some gl → gl.lookup k = some v →
      (∀ f i, ((H.overlapHead f i).1).lookup k = none) →
      (∀ f i, ((H.nonoverlapHead f i).1).lookup k = none) →
      k ≠ "loss_triple_branch_consistency" →
      r.losses.lookup k = some v) ∧
    (∀ (B F : Type) (H : TripleHeads B F) (fl : TBFlags) (nc : ℤ)
      (proposals : List (List (Inst B))) (t0 : List (Inst B))
      (rest : List (List (Inst B))) (r : TrainResult B F) (gl : LossMap)
      (k : String) (v : ℝ),
      fl.branchGuidance = false → fl.headsAttention = true →
      t0 ≠ [] →
      trainForward H fl nc proposals (t0 :: rest) = .ok r →
      r.guidanceLossRaw = some gl → gl.lookup k = some v →
      (∀ f i, ((H.overlapHead f i).1).lookup k = none) →
      (∀ f i, ((H.nonoverlapHead f i).1).lookup k = none) →
      (∀ f i, ((H.whole f i true).1).lookup k = none) →
      k ≠ "loss_triple_branch_consistency" →
      r.losses.lookup k = some v) := by
  refine ⟨?_, ?_, ?_⟩
  · intro B F H fl nc proposals t0 rest r gl k v hbg hside hne hok hglr hkv hO hN hW hk
    have hu : t0.isEmpty = false := by
      cases t0 with
      | nil => exact absurd rfl hne
      | cons a l => rfl
    obtain ⟨pre, l6, hpre, hg, hcs, hr⟩ := trainForward_ok_inv H fl nc proposals t0 rest r hok
    rw [hu] at hpre hg hcs
    obtain ⟨hgraw, hplos⟩ := preBranchStage_bg H fl false _ _ _ pre hbg hpre
    have hgl : some gl = pre.gLossRaw := by
      rw [← hglr, hr]
      rfl
    rw [hgraw] at hgl
    have hgl2 := Option.some.inj hgl
    have hlk6 : r.losses.lookup k = l6.lookup k :=
      consisStep_lookup_ne fl l6 _ _ _ r.losses k hk hcs
    unfold guidanceConsisStep at hg
    rw [if_neg (fun hco => Bool.false_ne_true hco.2)] at hg
    rw [hlk6, ← Except.ok.inj hg]
    rw [lookup_twRef_labeled H fl nc proposals pre k hside hO hN hW, hplos]
    rw [if_pos Bool.false_ne_true]
    rw [lookup_dictUpdate, lookup_scaleLM, ← hgl2, hkv]
    rfl
  · intro B F H fl nc proposals t0 rest r gl k v hbg hrf hpure hne hok hglr hkv hO hN hk
    have hu : t0.isEmpty = false := by
      cases t0 with
      | nil => exact absurd rfl hne
      | cons a l => rfl
    obtain ⟨pre, l6, hpre, hg, hcs, hr⟩ := trainForward_ok_inv H fl nc proposals t0 rest r hok
    rw [hu] at hpre hg hcs
    obtain ⟨hgraw, hplos⟩ := preBranchStage_bg H fl false _ _ _ pre hbg hpre
    have hgl : some gl = pre.gLossRaw := by
      rw [← hglr, hr]
      rfl
    rw [hgraw] at hgl
    have hgl2 := Option.some.inj hgl
    have hlk6 : r.losses.lookup k = l6.lookup k :=
      consisStep_lookup_ne fl l6 _ _ _ r.losses k hk hcs
    unfold guidanceConsisStep at hg
    rw [if_neg (fun hco => Bool.false_ne_true hco.2)] at hg
    rw [hlk6, ← Except.ok.inj hg]
    rw [lookup_twRef_labeled_pure H fl nc proposals pre k hrf hpure hO hN]
    rw [← hgl2, hkv]
    rfl
  · intro B F H fl nc proposals t0 rest r gl k v hbg hha hne hok hglr hkv hO hN hW hk
    have hu : t0.isEmpty = false := by
      cases t0 with
      | nil => exact absurd rfl hne
      | cons a l => rfl
    obtain ⟨pre, l6, hpre, hg, hcs, hr⟩ := trainForward_ok_inv H fl nc proposals t0 rest r hok
    rw [hu] at hpre hg hcs
    obtain ⟨hgraw, hplos⟩ := preBranchStage_ha H fl false _ _ _ pre hbg hha hpre
    have hgl : some gl = pre.gLossRaw := by
      rw [← hglr, hr]
      rfl
    rw [hgraw] at hgl
    have hgl2 := Option.some.inj hgl
    rw [if_neg Bool.false_ne_true] at hplos
    have hprelk : pre.losses.lookup k = some v := by
      rw [hplos, lookup_dictUpdate, ← hgl2, hkv]
      rfl
    have hlk6 : r.losses.lookup k = l6.lookup k :=
      consisStep_lookup_ne fl l6 _ _ _ r.losses k hk hcs
    unfold guidanceConsisStep at hg
    rw [if_neg (fun hco => Bool.false_ne_true hco.2)] at hg
    rw [hlk6, ← Except.ok.inj hg]
    cases hrf : fl.refinement with
    | false =>
      rw [lookup_twRef_labeled H fl nc proposals pre k (Or.inr hrf) hO hN hW, hprelk]
    | true =>
      cases hp : fl.pureBranch with
      | false =>
        rw [lookup_twRef_labeled H fl nc proposals pre k (Or.inl hp) hO hN hW, hprelk]
      | true =>
        rw [lookup_twRef_labeled_pure H fl nc proposals pre k hrf hp hO hN]
        rw [← hgl2, hkv]
        rfl

/-- Witness for the amended C4, exercising all three cases: the
branch-guidance run without the rerun yields the 0.75-weighted entry, the
branch-guidance run with the pure-branch rerun yields the unweighted entry,
and the heads-attention run yields the unweighted entry. -/
theorem c4_pre_branch_weights_amended_witness :
    rBG.losses.lookup "loss_whole_pre" = some (1 * 0.75) ∧
    rBGpure.losses.lookup "loss_whole_pre" = some 1 ∧
    rHA.losses.lookup "loss_whole_pre" = some 1 :=
  ⟨c4_pre_branch_weights_amended.1 ℕ ℤ Hfix flBG 3 pOne [⟨0, 0⟩] [] rBG
      [("loss_whole_pre", 1)] "loss_whole_pre" 1
      rfl (Or.inl rfl) (by simp) rfl rfl rfl
      (fun _ _ => rfl) (fun _ _ => rfl) (fun _ _ => rfl) (by decide),
   c4_pre_branch_weights_amended.2.1 ℕ ℤ Hfix flBGpure 3 pOne [⟨0, 0⟩] [] rBGpure
      [("loss_whole_pre", 1)] "loss_whole_pre" 1
      rfl rfl rfl (by simp) rfl rfl rfl
      (fun _ _ => rfl) (fun _ _ => rfl) (by decide),
   c4_pre_branch_weights_amended.2.2 ℕ ℤ Hfix flHA 3 pOne [⟨0, 0⟩] [] rHA
      [("loss_whole_pre", 1)] "loss_whole_pre" 1
      rfl rfl (by simp) rfl rfl rfl
      (fun _ _ => rfl) (fun _ _ => rfl) (fun _ _ => rfl) (by decide)⟩

/-- C6 (confirmed): whenever the consistency loss is enabled in mode "MX"
and the training forward pass returns, the entry under
`loss_triple_branch_consistency` equals 0.00125 times the mean binary
cross-entropy whose target is the 0.5-thresholded sigmoid of the refinement
whole-mask logits and whose input is the logical XOR of the 0.5-thresholded
sigmoids of the non-overlap and overlap logits. -/
theorem c6_consistency_mx {B F : Type} (H : TripleHeads B F) (fl : TBFlags) (nc : ℤ)
    (proposals targets : List (List (Inst B))) (r : TrainResult B F)
    (hc : fl.consisLoss = true) (hm : fl.consisLossMode = "MX")
    (hok : trainForward H fl nc proposals targets = .ok r) :
    ∃ wl, r.wholeLogits = some wl ∧
      r.losses.lookup "loss_triple_branch_consistency" =
        some (calTripleBranchConsistencyLoss (binarize wl)
          (binarizeXor r.nonoverlapLogits r.overlapLogits) * 0.00125) := by
  cases targets with
  | nil =>
    unfold trainForward at hok
    simp at hok
  | cons t0 rest =>
    obtain ⟨pre, l6, hpre, hg, hcs, hr⟩ := trainForward_ok_inv H fl nc proposals t0 rest r hok
    have hw : r.wholeLogits = (twRef H fl nc proposals t0.isEmpty pre).2 := by
      rw [hr]
      rfl
    have ho : r.overlapLogits =
        (H.overlapHead pre.overF (twSelected H fl nc proposals t0.isEmpty)).2.1 := by
      rw [hr]
      rfl
    have hn : r.nonoverlapLogits =
        (H.nonoverlapHead pre.nonoverF (twSelected H fl nc proposals t0.isEmpty)).2.1 := by
      rw [hr]
      rfl
    obtain ⟨wl, hwl, hlk⟩ := consisStep_mx_lookup fl l6 _ _ _ r.losses hc hm hcs
    refine ⟨wl, hw.trans hwl, ?_⟩
    rw [ho, hn]
    exact hlk

/-- Witness for C6 on the concrete MX run. -/
theorem c6_consistency_mx_witness :
    ∃ wl, rMX.wholeLogits = some wl ∧
      rMX.losses.lookup "loss_triple_branch_consistency" =
        some (calTripleBranchConsistencyLoss (binarize wl)
          (binarizeXor rMX.nonoverlapLogits rMX.overlapLogits) * 0.00125) :=
  c6_consistency_mx Hfix flMX 3 pOne pOne rMX rfl rfl rfl

/-- C9 (confirmed): if the configuration merely defines `FOR_NUCLEI` — with
any value, including false — then `for_nuclei` is true after construction,
both heads pass `filter_out_class = 0` to `label_and_sample_proposals`, and
every labeled training forward pass of the triple-branch router routes its
proposals through the labeling step with filter class 0. -/
theorem c9_for_nuclei_hasattr (cfg : ModelCfg) (b : Bool) (fl : TBFlags)
    (hattr : cfg.forNucleiAttr = some b)
    (hok : initTripleBranchFlags cfg = .ok fl) :
    fl.forNuclei = true ∧ tripleFilterClass fl = 0 ∧
    standardForNuclei cfg = true ∧ standardFilterClass (standardForNuclei cfg) = 0 ∧
    (∀ (B F : Type) (H : TripleHeads B F) (nc : ℤ)
      (proposals : List (List (Inst B))) (t0 : List (Inst B))
      (rest : List (List (Inst B))) (r : TrainResult B F), t0 ≠ [] →
      trainForward H fl nc proposals (t0 :: rest) = .ok r →
      r.instances = H.labelSample proposals 0) := by
  have hfn : fl.forNuclei = true := by
    unfold initTripleBranchFlags at hok
    split at hok
    · simp at hok
    · rcases hra : cfg.refinementAttr with _ | bb
      · rw [hra] at hok
        dsimp only at hok
        injection hok with hok
        rw [← hok]
        simp [hattr]
      · cases bb with
        | false =>
          rw [hra] at hok
          dsimp only at hok
          split at hok
          · injection hok with hok
            rw [← hok]
            simp [hattr]
          · simp at hok
        | true =>
          rw [hra] at hok
          dsimp only at hok
          injection hok with hok
          rw [← hok]
          simp [hattr]
  have htf : tripleFilterClass fl = 0 := by
    unfold tripleFilterClass
    rw [hfn]
    rfl
  refine ⟨hfn, htf, ?_, ?_, ?_⟩
  · unfold standardForNuclei
    rw [hattr]
    rfl
  · unfold standardFilterClass standardForNuclei
    rw [hattr]
    rfl
  · intro B F H nc proposals t0 rest r hne hokF
    obtain ⟨pre, l6, hpre, hg, hcs, hr⟩ := trainForward_ok_inv H fl nc proposals t0 rest r hokF
    have hu : t0.isEmpty = false := by
      cases t0 with
      | nil => exact absurd rfl hne
      | cons a l => rfl
    rw [hr]
    show twProps H.labelSample fl proposals t0.isEmpty = H.labelSample proposals 0
    unfold twProps
    rw [hu, if_neg Bool.false_ne_true, htf]

/-- Witness for C9 on a configuration whose `FOR_NUCLEI` attribute is
present with value false. -/
theorem c9_for_nuclei_hasattr_witness :
    flNuclei.forNuclei = true ∧ tripleFilterClass flNuclei = 0 ∧
    standardForNuclei cfgNuclei = true ∧
    standardFilterClass (standardForNuclei cfgNuclei) = 0 ∧
    (∀ (B F : Type) (H : TripleHeads B F) (nc : ℤ)
      (proposals : List (List (Inst B))) (t0 : List (Inst B))
      (rest : List (List (Inst B))) (r : TrainResult B F), t0 ≠ [] →
      trainForward H flNuclei nc proposals (t0 :: rest) = .ok r →
      r.instances = H.labelSample proposals 0) :=
  c9_for_nuclei_hasattr cfgNuclei false flNuclei rfl rfl

/-- C10 (confirmed): in an unlabeled training invocation (first image with
zero targets) the result does not depend on the labeling collaborator at
all, the proposals pass through unmodified as both the returned instances
and the mask-branch selection, and the mask features are pooled from the
boxes of all input proposals. -/
theorem c10_unlabeled_frame {B F : Type} (H : TripleHeads B F) (fl : TBFlags) (nc : ℤ)
    (proposals : List (List (Inst B))) (rest : List (List (Inst B))) :
    (∀ ls, trainForward { H with labelSample := ls } fl nc proposals ([] :: rest) =
      trainForward H fl nc proposals ([] :: rest)) ∧
    (∀ r : TrainResult B F, trainForward H fl nc proposals ([] :: rest) = .ok r →
      r.instances = proposals ∧ r.selected = proposals ∧
      r.pooledBoxes = proposals.map (fun im => im.map Inst.box)) := by
  constructor
  · intro ls
    rfl
  · intro r hok
    obtain ⟨pre, l6, hpre, hg, hcs, hr⟩ := trainForward_ok_inv H fl nc proposals [] rest r hok
    rw [hr]
    exact ⟨rfl, rfl, rfl⟩

/-- Witness for C10 on the concrete unlabeled run. -/
theorem c10_unlabeled_frame_witness :
    rPlain.instances = pOne ∧ rPlain.selected = pOne ∧
      rPlain.pooledBoxes = pOne.map (fun im => im.map Inst.box) :=
  (c10_unlabeled_frame Hfix flPlain 3 pOne []).2 rPlain rfl

end DoNet
